import Mathlib

/-!
Verification of the render-state orchestration core of the ray tracer
(src/main.cpp): the procedural sphere-scene generator, the progressive
accumulation step counter, the camera orbit rig, the compute-kernel
hot-reload protocol, and the compute dispatch grid.

Modelling conventions:
* 32-bit float arithmetic is modelled as exact rational arithmetic (ℚ);
  float literals from the source become the rationals written in the
  source text, and the math library constants PI, PIHALF, PI2 become the
  exact values of their float32 representations.
* The math library random source (math::random_uniform) is modelled as an
  explicit stream of unit draws (ℕ → ℚ) consumed left to right, with
  random_uniform lo hi u = lo + u * (hi - lo).
* The external collaborators math::sin, math::cos and colors::hsv_to_rgb
  are opaque to the orchestration logic, so the scene generator is
  parametrised over them.
* The unbounded do/while rejection loop of reset_spheres is modelled with
  an explicit attempt budget (fuel); running out of fuel yields none,
  which models the source loop still spinning after that many attempts.
* The derived camera eye position uses real trigonometry (ℝ, Real.sin,
  Real.cos).
-/

namespace RayTracer

/-- SPHERES_COUNT macro from src/main.cpp. -/
def SPHERES_COUNT : ℕ := 75

/-- GROUP_SIZE_X macro from src/main.cpp. -/
def GROUP_SIZE_X : ℕ := 32

/-- GROUP_SIZE_Y macro from src/main.cpp. -/
def GROUP_SIZE_Y : ℕ := 32

/-- Window width set in main. -/
def window_width : ℕ := 1280

/-- Window height set in main. -/
def window_height : ℕ := 960

/-- Render target width, window_width / 2 (C++ integer division). -/
def render_target_width : ℕ := window_width / 2

/-- Render target height, window_height / 2 (C++ integer division). -/
def render_target_height : ℕ := window_height / 2

/-- Modelled from the spec: math::PI (maths.h is an external collaborator,
not under src/); exact value of the float32 closest to π. -/
def mathPI : ℚ := 13176795 / 4194304

/-- Modelled from the spec: math::PIHALF, exact float32 value of π/2. -/
def mathPIHALF : ℚ := 13176795 / 8388608

/-- Modelled from the spec: math::PI2, exact float32 value of 2π. -/
def mathPI2 : ℚ := 13176795 / 2097152

/-- Modelled from the spec: math::random_uniform(lo, hi) draws uniformly
from [lo, hi]; u is the unit draw taken from the random source. -/
def random_uniform (lo hi u : ℚ) : ℚ := lo + u * (hi - lo)

/-- Modelled from the spec: math::clamp restricts a value to [lo, hi]. -/
def clamp (x lo hi : ℚ) : ℚ := min (max x lo) hi

/-- A 4-component float vector (Vector4 of maths.h), components exact ℚ. -/
structure Vec4 where
  x : ℚ
  y : ℚ
  z : ℚ
  w : ℚ
deriving DecidableEq

/-- The five material kinds of the Material enum in main. -/
inductive Material where
  | LAMBERT
  | LAMBERT_CHECKERBOARD
  | METAL
  | DIELECTRIC
  | LIGHT
deriving DecidableEq

/-- Numeric code of a material, the value stored in materials[i].w. -/
def matCode : Material → ℚ
  | .LAMBERT => 0
  | .LAMBERT_CHECKERBOARD => 1
  | .METAL => 2
  | .DIELECTRIC => 3
  | .LIGHT => 4

/-- The 7-slot index_to_mat table of reset_spheres: lambertian materials
are represented twice so that they are more probable. -/
def index_to_mat : List Material :=
  [.LAMBERT, .LAMBERT, .LAMBERT_CHECKERBOARD, .LAMBERT_CHECKERBOARD,
   .METAL, .DIELECTRIC, .LIGHT]

/-- Number of slots of the index_to_mat table occupied by material m. -/
def mat_slots (m : Material) : ℕ :=
  (index_to_mat.filter fun m2 => decide (m2 = m)).length

/-- Probability of material m under a uniform draw over the table slots. -/
def mat_prob (m : Material) : ℚ := (mat_slots m : ℚ) / (index_to_mat.length : ℚ)

/-- Material picked by reset_spheres from one draw:
index_to_mat[int(random_uniform(0, ARRAYSIZE(index_to_mat)))].  The C int
cast truncates; for the in-range draws u ∈ [0, 1) this is the floor. -/
def mat_from_draw (u : ℚ) : Material :=
  index_to_mat.getD (⌊random_uniform 0 7 u⌋).toNat .LAMBERT

/-- SPHERES_CIRCLE_RADIUS constant of reset_spheres. -/
def SPHERES_CIRCLE_RADIUS : ℚ := 15

/-- One candidate position of the rejection loop: an angle uniform in
[0, PI2] and a radial distance random_uniform() * SPHERES_CIRCLE_RADIUS,
recentered by the fixed x offset -6.  sinQ and cosQ are the external
math::sin and math::cos collaborators; u1 and u2 are the two draws. -/
def candidate (sinQ cosQ : ℚ → ℚ) (u1 u2 : ℚ) : ℚ × ℚ :=
  let a := random_uniform 0 mathPI2 u1
  let r := u2 * SPHERES_CIRCLE_RADIUS
  (sinQ a * r - 6, cosQ a * r)

/-- Collision test of reset_spheres for one previously placed sphere:
math::length(other_sphere_pos - current_pos) < other_sphere.w + sphere_size.
Since the squared planar distance is nonnegative, the source comparison
of the Euclidean length is equivalent to this squared form. -/
def collides (other : Vec4) (x z size : ℚ) : Bool :=
  let dx := other.x - x
  let dz := other.z - z
  let sum := other.w + size
  decide (0 < sum ∧ dx ^ 2 + dz ^ 2 < sum ^ 2)

/-- Inner collision scan of reset_spheres: for (j = 1; j < i; j++). -/
def any_collision (positions : ℕ → Vec4) (i : ℕ) (x z size : ℚ) : Bool :=
  (List.range' 1 (i - 1)).any fun j => collides (positions j) x z size

/-- The do/while rejection loop placing sphere i, with an explicit attempt
budget (the source loop is unbounded).  idx is the cursor into the random
stream s; a successful attempt returns the accepted position and the new
cursor.  none means the source loop would still be spinning after fuel
attempts. -/
def place_sphere (sinQ cosQ : ℚ → ℚ) (positions : ℕ → Vec4) (i : ℕ)
    (size : ℚ) (s : ℕ → ℚ) : ℕ → ℕ → Option ((ℚ × ℚ) × ℕ)
  | _, 0 => none
  | idx, fuel + 1 =>
    let c := candidate sinQ cosQ (s idx) (s (idx + 1))
    if any_collision positions i c.1 c.2 size then
      place_sphere sinQ cosQ positions i size s (idx + 2) fuel
    else
      some (c, idx + 2)

/-- Scale an rgb triple by a scalar (Vector3 * float of the source). -/
def smul (c : ℚ) (v : ℚ × ℚ × ℚ) : ℚ × ℚ × ℚ := (v.1 * c, v.2.1 * c, v.2.2 * c)

/-- Color chosen by the material switch of reset_spheres.  hsv is the
external colors::hsv_to_rgb collaborator; idx is the stream cursor at the
hue draw; the returned cursor accounts for whether a hue was drawn. -/
def sphere_color (hsv : ℚ → ℚ → ℚ → ℚ × ℚ × ℚ) (s : ℕ → ℚ) (idx : ℕ) :
    Material → (ℚ × ℚ × ℚ) × ℕ
  | .LAMBERT => (smul 0.2 (hsv (random_uniform 180 360 (s idx)) 0.9 1), idx + 1)
  | .LAMBERT_CHECKERBOARD =>
    (smul 0.2 (hsv (random_uniform 180 360 (s idx)) 0.9 1), idx + 1)
  | .METAL => ((0.9, 0.9, 0.9), idx)
  | .DIELECTRIC => ((0.9, 0.9, 0.9), idx)
  | .LIGHT => (smul 500 (hsv (random_uniform 0 360 (s idx)) 0.2 1), idx + 1)

/-- State of the spheres buffer during generation: the two parallel arrays
of the SpheresBuffer struct, plus the cursor into the random stream. -/
structure GenState where
  positions : ℕ → Vec4
  materials : ℕ → Vec4
  idx : ℕ

/-- positions array before the generation loop: ground sphere at slot 0,
reserved sun sphere at slot 1, remaining slots uninitialized (modelled
as zero; the loop overwrites every slot from 1 on). -/
def init_positions : ℕ → Vec4 :=
  Function.update (Function.update (fun _ => ⟨0, 0, 0, 0⟩)
    0 ⟨0, -1000, 0, 1000⟩) 1 ⟨10, 10, 0, 2⟩

/-- materials array before the generation loop. -/
def init_materials : ℕ → Vec4 :=
  Function.update (Function.update (fun _ => ⟨0, 0, 0, 0⟩)
    0 ⟨0.15, 0.15, 0.15, 0⟩) 1 ⟨800, 800, 800, 4⟩

/-- Initial generation state. -/
def init_state : GenState :=
  { positions := init_positions, materials := init_materials, idx := 0 }

/-- Body of the generation loop of reset_spheres for index i: draw the
size, place the sphere by rejection sampling, pick material and color,
and write both arrays at slot i. -/
def gen_sphere (sinQ cosQ : ℚ → ℚ) (hsv : ℚ → ℚ → ℚ → ℚ × ℚ × ℚ)
    (s : ℕ → ℚ) (fuel : ℕ) (st : GenState) (i : ℕ) : Option GenState :=
  let size := random_uniform 0.5 1 (s st.idx)
  match place_sphere sinQ cosQ st.positions i size s (st.idx + 1) fuel with
  | none => none
  | some (c, idx2) =>
    let mat := mat_from_draw (s idx2)
    let cr := sphere_color hsv s (idx2 + 1) mat
    some {
      positions := Function.update st.positions i ⟨c.1, size, c.2, size⟩,
      materials := Function.update st.materials i
        ⟨cr.1.1, cr.1.2.1, cr.1.2.2, matCode mat⟩,
      idx := cr.2 }

/-- The generation loop of reset_spheres run for sphere indices 1..n. -/
def gen_fold (sinQ cosQ : ℚ → ℚ) (hsv : ℚ → ℚ → ℚ → ℚ × ℚ × ℚ)
    (s : ℕ → ℚ) (fuel : ℕ) (n : ℕ) : Option GenState :=
  (List.range' 1 n).foldl
    (fun acc i => acc.bind fun st => gen_sphere sinQ cosQ hsv s fuel st i)
    (some init_state)

/-- reset_spheres of src/main.cpp: for (i = 1; i < SPHERES_COUNT; ++i)
generate a non-overlapping sphere (the final constant-buffer upload is an
external collaborator side effect and is not modelled). -/
def reset_spheres (sinQ cosQ : ℚ → ℚ) (hsv : ℚ → ℚ → ℚ → ℚ × ℚ × ℚ)
    (s : ℕ → ℚ) (fuel : ℕ) : Option GenState :=
  gen_fold sinQ cosQ hsv s fuel (SPHERES_COUNT - 1)

/-- Horizontal-plane (x,z) distance between two sphere records. -/
noncomputable def hdist (p q : Vec4) : ℝ :=
  Real.sqrt (((p.x - q.x) ^ 2 + (p.z - q.z) ^ 2 : ℚ) : ℝ)

/-- Two sphere records are horizontally separated: the planar distance
between their centers is at least the sum of their radii. -/
noncomputable def far (p q : Vec4) : Prop :=
  ((p.w + q.w : ℚ) : ℝ) ≤ hdist p q

/-- All pairs of distinct spheres with indices in [1, k) are separated. -/
noncomputable def scene_inv (pos : ℕ → Vec4) (k : ℕ) : Prop :=
  ∀ a b, 1 ≤ a → 1 ≤ b → a < k → b < k → a ≠ b → far (pos a) (pos b)

/-- MOUSE_SPEED constant of the drag handler. -/
def MOUSE_SPEED : ℚ := 0.003

/-- Mouse drag handler of main: cam is (azimuth, polar), dm the mouse
delta; azimuth -= dm.x * MOUSE_SPEED, polar -= dm.y * MOUSE_SPEED, then
polar is clamped so we cannot look completely along the y-axis. -/
def apply_drag (cam : ℚ × ℚ) (dm : ℚ × ℚ) : ℚ × ℚ :=
  (cam.1 - dm.1 * MOUSE_SPEED,
   clamp (cam.2 - dm.2 * MOUSE_SPEED) 0.02 mathPI)

/-- Initial polar angle of main: math::PIHALF * 0.5f. -/
def initial_polar : ℚ := mathPIHALF * 0.5

/-- Initial azimuth of main. -/
def initial_azimuth : ℚ := 0

/-- Camera position computed each frame in main:
Vector3(sin(azimuth) * sin(polar), cos(polar), cos(azimuth) * sin(polar))
scaled by radius, with the trigonometry of the math collaborator modelled
over ℝ. -/
noncomputable def camera_pos (azimuth polar radius : ℝ) : ℝ × ℝ × ℝ :=
  (Real.sin azimuth * Real.sin polar * radius,
   Real.cos polar * radius,
   Real.cos azimuth * Real.sin polar * radius)

/-- Compute dispatch grid of the frame loop:
run_compute(render_target_width / GROUP_SIZE_X,
            render_target_height / GROUP_SIZE_Y, 1)
with C++ integer division. -/
def dispatch_groups : ℕ × ℕ × ℕ :=
  (render_target_width / GROUP_SIZE_X, render_target_height / GROUP_SIZE_Y, 1)

/-- The two operations touching config.step inside one frame iteration:
the unconditional increment at the top of the loop, and reset_rendering
(which clears the render texture and sets step = 1). -/
inductive AccumOp where
  | tick
  | reset
deriving DecidableEq

/-- Effect of one accumulation operation on the step counter. -/
def apply_op (step : ℤ) : AccumOp → ℤ
  | .tick => step + 1
  | .reset => 1

/-- Per-frame inputs that decide which accumulation operations run. -/
structure FrameInput where
  ui_capturing : Bool
  f2_pressed : Bool
  scroll_delta : ℚ
  dragging : Bool
  file_time_changed : Bool
  compile_ok : Bool
  show_ui : Bool
  slider_changed : Bool

/-- The sequence of step-counter operations one frame iteration performs,
in source order: config.step += 1 at the top of the loop, then the
possible reset_rendering calls (F2, mouse wheel, mouse drag, successful
shader hot reload, UI slider edit). -/
def frame_accum_trace (inp : FrameInput) : List AccumOp :=
  [AccumOp.tick]
    ++ (if ¬inp.ui_capturing ∧ inp.f2_pressed then [AccumOp.reset] else [])
    ++ (if ¬inp.ui_capturing ∧ |inp.scroll_delta| > 0 then [AccumOp.reset] else [])
    ++ (if ¬inp.ui_capturing ∧ inp.dragging then [AccumOp.reset] else [])
    ++ (if inp.file_time_changed ∧ inp.compile_ok then [AccumOp.reset] else [])
    ++ (if inp.show_ui ∧ inp.slider_changed then [AccumOp.reset] else [])

/-- Value of config.step at the end of one frame iteration. -/
def frame_step (step : ℤ) (inp : FrameInput) : ℤ :=
  (frame_accum_trace inp).foldl apply_op step

/-- Whether some reset appears at or after the first tick of a trace. -/
def reset_after_tick (ops : List AccumOp) : Bool :=
  (ops.dropWhile fun op => !(decide (op = AccumOp.tick))).any
    fun op => decide (op = AccumOp.reset)

/-- A frame input with F2 pressed and the UI not capturing input, so the
frame both resets and ticks. -/
def f2_frame : FrameInput :=
  { ui_capturing := false, f2_pressed := true, scroll_delta := 0,
    dragging := false, file_time_changed := false, compile_ok := false,
    show_ui := false, slider_changed := false }

/-- State relevant to the shader hot-reload check: the identity of the
active compute-shader handle (an opaque id), the stored source timestamp
(FILETIME modelled as ℤ), and the accumulation step counter. -/
structure ReloadState where
  shader : ℕ
  stored_time : ℤ
  step : ℤ
deriving DecidableEq

/-- Outcome of one per-frame hot-reload check. -/
structure ReloadResult where
  state : ReloadState
  attempted : Bool
  swapped : Bool
deriving DecidableEq

/-- The per-frame shader hot-reload check of main: if the source file
timestamp differs from the stored one, attempt to compile (the compiler
is an external collaborator whose outcome is the parameter: some id on
success, none on failure).  On success the old handle is replaced and
reset_rendering runs (step = 1); in both cases the new timestamp is
stored.  If the timestamp is unchanged nothing happens. -/
def hot_reload_check (st : ReloadState) (current_time : ℤ)
    (compile : Option ℕ) : ReloadResult :=
  if current_time = st.stored_time then
    { state := st, attempted := false, swapped := false }
  else
    match compile with
    | some id =>
      { state := { shader := id, stored_time := current_time, step := 1 },
        attempted := true, swapped := true }
    | none =>
      { state := { shader := st.shader, stored_time := current_time,
                   step := st.step },
        attempted := true, swapped := false }

/-- Zero function, standing in for the sin/cos collaborators in concrete
runs (their values are irrelevant to the properties proved about them). -/
def zfun : ℚ → ℚ := fun _ => 0

/-- hsv_to_rgb collaborator returning black, for concrete runs. -/
def zhsv : ℚ → ℚ → ℚ → ℚ × ℚ × ℚ := fun _ _ _ => (0, 0, 0)

/-- The all-zero random stream. -/
def zstream : ℕ → ℚ := fun _ => 0

/-- A constant random stream whose unit draws are all -3. -/
def cstream : ℕ → ℚ := fun _ => -3

/-- The positions array after the zero stream places sphere 1 at (-6, 0)
with size 1/2: the scene in which every later candidate of the zero
stream collides forever. -/
def stuck_positions : ℕ → Vec4 :=
  Function.update init_positions 1 ⟨-6, 0.5, 0, 0.5⟩

/-- Applying one drag update leaves polar inside [0.02, math::PI]. -/
lemma apply_drag_polar_bounds (cam dm : ℚ × ℚ) :
    0.02 ≤ (apply_drag cam dm).2 ∧ (apply_drag cam dm).2 ≤ mathPI := by
  unfold apply_drag clamp
  refine ⟨le_min (le_max_right _ _) ?_, min_le_right _ _⟩
  norm_num [mathPI]

/-- C6: each frame the compute kernel is dispatched over a grid of
exactly ceil(targetWidth / tileX) x ceil(targetHeight / tileY) x 1
workgroups for the configured render-target dimensions (640 x 480) and
the fixed tile constants (32 x 32), namely 20 x 15 x 1. -/
theorem dispatch_grid_dims :
    dispatch_groups.1 = ⌈(render_target_width : ℚ) / (GROUP_SIZE_X : ℚ)⌉₊ ∧
    dispatch_groups.2.1 = ⌈(render_target_height : ℚ) / (GROUP_SIZE_Y : ℚ)⌉₊ ∧
    dispatch_groups.2.2 = 1 ∧
    dispatch_groups = (20, 15, 1) := by
  refine ⟨?_, ?_, rfl, rfl⟩ <;>
    norm_num [dispatch_groups, render_target_width, render_target_height,
      window_width, window_height, GROUP_SIZE_X, GROUP_SIZE_Y]

/-- C8: the derived eye position equals
radius * (sin azimuth * sin polar, cos polar, cos azimuth * sin polar);
at azimuth = 0, polar = pi/2, radius = 10 it is (0, 0, 10) exactly, hence
within the 1e-4 tolerance componentwise. -/
theorem camera_eye_position :
    (∀ az pol r : ℝ, camera_pos az pol r =
      (r * (Real.sin az * Real.sin pol), r * Real.cos pol,
       r * (Real.cos az * Real.sin pol))) ∧
    |(camera_pos 0 (Real.pi / 2) 10).1| ≤ 1 / 10000 ∧
    |(camera_pos 0 (Real.pi / 2) 10).2.1| ≤ 1 / 10000 ∧
    |(camera_pos 0 (Real.pi / 2) 10).2.2 - 10| ≤ 1 / 10000 := by
  constructor
  · intro az pol r
    simp only [camera_pos, Prod.mk.injEq]
    refine ⟨by ring, by ring, by ring⟩
  · refine ⟨?_, ?_, ?_⟩ <;>
      simp [camera_pos, Real.sin_pi_div_two, Real.cos_pi_div_two,
        Real.sin_zero, Real.cos_zero]

/-- C4: if the hot-reload check sees a changed timestamp but compilation
fails, the active shader handle is unchanged, no swap happens, the step
counter is not reset, and the new timestamp is stored anyway. -/
theorem reload_failure_keeps_state (st : ReloadState) (t : ℤ)
    (h : t ≠ st.stored_time) :
    (hot_reload_check st t none).state.shader = st.shader ∧
    (hot_reload_check st t none).swapped = false ∧
    (hot_reload_check st t none).state.step = st.step ∧
    (hot_reload_check st t none).state.stored_time = t ∧
    (hot_reload_check st t none).attempted = true := by
  simp [hot_reload_check, h]

/-- Witness for C4 at a concrete state and timestamp. -/
theorem reload_failure_keeps_state_witness :
    (5 : ℤ) ≠ (ReloadState.mk 7 0 42).stored_time ∧
    ((hot_reload_check ⟨7, 0, 42⟩ 5 none).state.shader =
        (ReloadState.mk 7 0 42).shader ∧
      (hot_reload_check ⟨7, 0, 42⟩ 5 none).swapped = false ∧
      (hot_reload_check ⟨7, 0, 42⟩ 5 none).state.step =
        (ReloadState.mk 7 0 42).step ∧
      (hot_reload_check ⟨7, 0, 42⟩ 5 none).state.stored_time = 5 ∧
      (hot_reload_check ⟨7, 0, 42⟩ 5 none).attempted = true) :=
  ⟨by decide, reload_failure_keeps_state ⟨7, 0, 42⟩ 5 (by decide)⟩

/-- C10: the stored kernel-source timestamp is never initialized from the
startup compile, so for some initial value of the (uninitialized) stored
timestamp the very first frame attempts a reload although the file time T
is unchanged since process start; on successful compilation the shader is
swapped and the accumulation step is reset. -/
theorem stale_timestamp_first_frame_reload (T : ℤ) (shader0 : ℕ)
    (step0 : ℤ) (newId : ℕ) :
    ∃ t0 : ℤ, t0 ≠ T ∧
      (hot_reload_check ⟨shader0, t0, step0⟩ T (some newId)).attempted = true ∧
      (hot_reload_check ⟨shader0, t0, step0⟩ T (some newId)).state.shader = newId ∧
      (hot_reload_check ⟨shader0, t0, step0⟩ T (some newId)).state.step = 1 ∧
      (hot_reload_check ⟨shader0, t0, step0⟩ T none).attempted = true := by
  refine ⟨T + 1, by omega, ?_⟩
  have hne : ¬(T = T + 1) := by omega
  simp [hot_reload_check, hne]

/-- C9: scene generation is deterministic given the random source: two
runs over random sources that agree on every draw produce identical
scenes (same positions, materials, colors and stream cursor). -/
theorem scene_generation_deterministic (sinQ cosQ : ℚ → ℚ)
    (hsv : ℚ → ℚ → ℚ → ℚ × ℚ × ℚ) (s1 s2 : ℕ → ℚ) (fuel : ℕ)
    (h : ∀ n, s1 n = s2 n) :
    reset_spheres sinQ cosQ hsv s1 fuel = reset_spheres sinQ cosQ hsv s2 fuel := by
  have hs : s1 = s2 := funext h
  rw [hs]

/-- Witness for C9 on a concrete random source. -/
theorem scene_generation_deterministic_witness :
    reset_spheres zfun zfun zhsv zstream 3 =
      reset_spheres zfun zfun zhsv zstream 3 :=
  scene_generation_deterministic zfun zfun zhsv zstream zstream 3 fun _ => rfl

/-- C7: the material table has 7 slots, Lambert and LambertCheckerboard
occupy 2 slots each, Metal, Dielectric and Light occupy 1 slot each, so a
uniform index gives kind probabilities 2/7, 2/7, 1/7, 1/7, 1/7; moreover
a unit draw in [k/7, (k+1)/7) selects exactly slot k of the table. -/
theorem material_table_distribution :
    (index_to_mat.length = 7 ∧
      mat_slots .LAMBERT = 2 ∧ mat_slots .LAMBERT_CHECKERBOARD = 2 ∧
      mat_slots .METAL = 1 ∧ mat_slots .DIELECTRIC = 1 ∧
      mat_slots .LIGHT = 1 ∧
      mat_prob .LAMBERT = 2 / 7 ∧ mat_prob .LAMBERT_CHECKERBOARD = 2 / 7 ∧
      mat_prob .METAL = 1 / 7 ∧ mat_prob .DIELECTRIC = 1 / 7 ∧
      mat_prob .LIGHT = 1 / 7) ∧
    ∀ (k : ℕ) (u : ℚ), k < 7 → (k : ℚ) / 7 ≤ u → u < ((k : ℚ) + 1) / 7 →
      mat_from_draw u = index_to_mat.getD k .LAMBERT := by
  constructor
  · refine ⟨rfl, rfl, rfl, rfl, rfl, rfl, ?_, ?_, ?_, ?_, ?_⟩
    · unfold mat_prob
      rw [show mat_slots Material.LAMBERT = 2 from rfl,
        show index_to_mat.length = 7 from rfl]
      norm_num
    · unfold mat_prob
      rw [show mat_slots Material.LAMBERT_CHECKERBOARD = 2 from rfl,
        show index_to_mat.length = 7 from rfl]
      norm_num
    · unfold mat_prob
      rw [show mat_slots Material.METAL = 1 from rfl,
        show index_to_mat.length = 7 from rfl]
      norm_num
    · unfold mat_prob
      rw [show mat_slots Material.DIELECTRIC = 1 from rfl,
        show index_to_mat.length = 7 from rfl]
      norm_num
    · unfold mat_prob
      rw [show mat_slots Material.LIGHT = 1 from rfl,
        show index_to_mat.length = 7 from rfl]
      norm_num
  · intro k u hk h1 h2
    have hfl : ⌊random_uniform 0 7 u⌋ = (k : ℤ) := by
      rw [Int.floor_eq_iff]
      unfold random_uniform
      push_cast
      constructor <;> nlinarith
    unfold mat_from_draw
    rw [hfl, Int.toNat_natCast]

/-- Witness for C7: the draw 4/7 lands in slot 4 of the table. -/
theorem material_table_distribution_witness :
    mat_from_draw (4 / 7) = index_to_mat.getD 4 .LAMBERT :=
  material_table_distribution.2 4 (4 / 7) (by norm_num) (by norm_num)
    (by norm_num)

/-- Counterexample to C5: a single adversarially large drag lands polar
exactly on the clamp boundary 0.02, which is not strictly inside the open
interval (0.02, pi). -/
theorem polar_open_interval_cex :
    (apply_drag (initial_azimuth, initial_polar) (0, 1000)).2 = 0.02 ∧
    ¬(0.02 < (apply_drag (initial_azimuth, initial_polar) (0, 1000)).2) := by
  have h : (apply_drag (initial_azimuth, initial_polar) (0, 1000)).2 = 0.02 := by
    unfold apply_drag clamp initial_polar mathPIHALF MOUSE_SPEED mathPI
    norm_num [min_def, max_def]
  exact ⟨h, by rw [h]; exact lt_irrefl _⟩

/-- C5 amended: after every finite nonempty sequence of drag updates,
including adversarially large deltas, the polar angle lies within the
closed interval [0.02, math::PI]; adversarial deltas can land exactly on
the endpoints, so the open-interval form fails but the closed one holds. -/
theorem polar_stays_in_closed_range (cam : ℚ × ℚ) (dms : List (ℚ × ℚ))
    (h : dms ≠ []) :
    0.02 ≤ (dms.foldl apply_drag cam).2 ∧
    (dms.foldl apply_drag cam).2 ≤ mathPI := by
  induction dms generalizing cam with
  | nil => exact absurd rfl h
  | cons d ds ih =>
    rcases ds with _ | ⟨e, es⟩
    · simpa using apply_drag_polar_bounds cam d
    · simpa using ih (apply_drag cam d) (by simp)

/-- Witness for C5 amended: one huge drag from the initial camera. -/
theorem polar_stays_in_closed_range_witness :
    ([((0 : ℚ), (1000 : ℚ))] ≠ ([] : List (ℚ × ℚ))) ∧
    (0.02 ≤ ([((0 : ℚ), (1000 : ℚ))].foldl apply_drag
        (initial_azimuth, initial_polar)).2 ∧
      ([((0 : ℚ), (1000 : ℚ))].foldl apply_drag
        (initial_azimuth, initial_polar)).2 ≤ mathPI) :=
  ⟨by simp, polar_stays_in_closed_range (initial_azimuth, initial_polar)
    [(0, 1000)] (by simp)⟩

/-- Membership in one of the conditional reset blocks means the
operation is a reset. -/
lemma mem_ite_reset {c : Prop} [Decidable c] {op : AccumOp}
    (h : op ∈ if c then [AccumOp.reset] else []) : op = AccumOp.reset := by
  split at h <;> simp_all

/-- Folding the step counter over a nonempty all-reset suffix gives 1. -/
lemma foldl_resets (l : List AccumOp)
    (hall : ∀ op ∈ l, op = AccumOp.reset) (hne : l ≠ []) (z : ℤ) :
    l.foldl apply_op z = 1 := by
  induction l generalizing z with
  | nil => exact absurd rfl hne
  | cons a t ih =>
    have ha : a = AccumOp.reset := hall a (by simp)
    subst ha
    rcases t with _ | ⟨b, ts⟩
    · rfl
    · exact ih (fun op hop => hall op (by simp [hop])) (by simp) _

/-- Counterexample to C3: in a frame where F2 regenerates the scene, the
operation trace is [tick, reset]; the reset is applied after the step
increment, not before it, contradicting the claimed ordering. -/
theorem reset_before_tick_cex :
    frame_accum_trace f2_frame = [AccumOp.tick, AccumOp.reset] ∧
    reset_after_tick (frame_accum_trace f2_frame) = true := by
  have h : frame_accum_trace f2_frame = [AccumOp.tick, AccumOp.reset] := by
    norm_num [frame_accum_trace, f2_frame]
  exact ⟨h, by rw [h]; rfl⟩

/-- C3 amended: within a single frame the step increment runs first, at
the top of the loop, and every accumulation reset runs after it; a frame
in which both a reset and the tick occur still ends with step == 1
(never 2), because each reset overwrites the incremented counter with 1
and no increment follows it. -/
theorem tick_first_reset_forces_step_one (step0 : ℤ) (inp : FrameInput) :
    (frame_accum_trace inp).head? = some AccumOp.tick ∧
    (AccumOp.reset ∈ frame_accum_trace inp → frame_step step0 inp = 1) := by
  have hall : ∀ op ∈ (frame_accum_trace inp).tail, op = AccumOp.reset := by
    intro op hop
    unfold frame_accum_trace at hop
    simp only [List.cons_append, List.nil_append, List.tail_cons,
      List.mem_append] at hop
    rcases hop with (((h | h) | h) | h) | h <;> exact mem_ite_reset h
  have htr : frame_accum_trace inp =
      AccumOp.tick :: (frame_accum_trace inp).tail := rfl
  refine ⟨rfl, fun hmem => ?_⟩
  have hne : (frame_accum_trace inp).tail ≠ [] := by
    intro h0
    rw [htr, h0] at hmem
    simp at hmem
  unfold frame_step
  rw [htr, List.foldl_cons]
  exact foldl_resets _ hall hne _

/-- Witness for C3 amended: a frame with F2 pressed, starting at step 5,
ticks first and ends the frame at step 1. -/
theorem tick_first_reset_forces_step_one_witness :
    (frame_accum_trace f2_frame).head? = some AccumOp.tick ∧
    frame_step 5 f2_frame = 1 :=
  ⟨(tick_first_reset_forces_step_one 5 f2_frame).1,
    (tick_first_reset_forces_step_one 5 f2_frame).2
      (by norm_num [frame_accum_trace, f2_frame])⟩

/-- On the all-zero random stream every candidate position is (-6, 0). -/
lemma candidate_zstream (idx : ℕ) :
    candidate zfun zfun (zstream idx) (zstream (idx + 1)) = (-6, 0) := by
  norm_num [candidate, zfun, zstream, SPHERES_CIRCLE_RADIUS, random_uniform]

/-- The size drawn from the all-zero stream is always 0.5. -/
lemma size_zstream (n : ℕ) : random_uniform 0.5 1 (zstream n) = 0.5 := by
  norm_num [random_uniform, zstream]

/-- In a scene whose sphere 1 sits at (-6, 0) with radius 0.5, the
rejection loop for sphere 2 driven by the all-zero stream never accepts,
whatever the attempt budget: the source do/while loop never terminates. -/
lemma place_sphere_stuck (p : ℕ → Vec4) (hp : p 1 = ⟨-6, 0.5, 0, 0.5⟩) :
    ∀ fuel idx, place_sphere zfun zfun p 2 0.5 zstream idx fuel = none := by
  have hcol : any_collision p 2 (-6 : ℚ) 0 0.5 = true := by
    norm_num [any_collision, collides, hp]
  intro fuel
  induction fuel with
  | zero => intro idx; rfl
  | succ f ih =>
    intro idx
    simp only [place_sphere, candidate_zstream, hcol, if_true]
    exact ih (idx + 2)

/-- Folding the generation step over any remaining index list absorbs a
failed prefix: once the accumulator is none it stays none. -/
lemma foldl_bind_none (g : GenState → ℕ → Option GenState) (l : List ℕ) :
    l.foldl (fun acc i => acc.bind fun st => g st i) none = none := by
  induction l with
  | nil => rfl
  | cons a t ih => simpa using ih

/-- Any position accepted by the rejection loop on the all-zero stream
is (-6, 0). -/
lemma place_sphere_zstream_pos (p : ℕ → Vec4) (i : ℕ) (size : ℚ) :
    ∀ fuel idx c idx2,
      place_sphere zfun zfun p i size zstream idx fuel = some (c, idx2) →
      c = (-6, 0) := by
  intro fuel
  induction fuel with
  | zero => intro idx c idx2 h; exact absurd h (by simp [place_sphere])
  | succ f ih =>
    intro idx c idx2 h
    simp only [place_sphere, candidate_zstream] at h
    split at h
    · exact ih (idx + 2) c idx2 h
    · simp only [Option.some.injEq, Prod.mk.injEq] at h
      exact h.1.symm

/-- Successful generation of sphere i decomposes into an accepted
rejection-loop position and a positions array updated at slot i with the
accepted position and drawn size. -/
lemma gen_sphere_positions {sinQ cosQ : ℚ → ℚ} {hsv : ℚ → ℚ → ℚ → ℚ × ℚ × ℚ}
    {s : ℕ → ℚ} {fuel : ℕ} {st : GenState} {i : ℕ} {st' : GenState}
    (h : gen_sphere sinQ cosQ hsv s fuel st i = some st') :
    ∃ c idx2,
      place_sphere sinQ cosQ st.positions i (random_uniform 0.5 1 (s st.idx))
        s (st.idx + 1) fuel = some (c, idx2) ∧
      st'.positions = Function.update st.positions i
        ⟨c.1, random_uniform 0.5 1 (s st.idx), c.2,
          random_uniform 0.5 1 (s st.idx)⟩ := by
  simp only [gen_sphere] at h
  cases hps : place_sphere sinQ cosQ st.positions i
      (random_uniform 0.5 1 (s st.idx)) s (st.idx + 1) fuel with
  | none => rw [hps] at h; cases h
  | some v =>
    obtain ⟨c, idx2⟩ := v
    rw [hps] at h
    simp only [Option.some.injEq] at h
    exact ⟨c, idx2, rfl, by rw [← h]⟩

/-- C2: the rejection-sampling loop placing each sphere is unbounded in
the source: on the all-zero random stream, placement of sphere 2 in the
stuck scene never accepts no matter how many attempts are allowed, and
whole-scene generation therefore yields no scene for any attempt budget;
there is no attempt cap or explicit failure outcome in the source, whose
do/while loop runs forever on this input. -/
theorem rejection_loop_never_terminates :
    (∀ fuel idx,
      place_sphere zfun zfun stuck_positions 2 0.5 zstream idx fuel = none) ∧
    (∀ fuel, reset_spheres zfun zfun zhsv zstream fuel = none) := by
  have hp : stuck_positions 1 = ⟨-6, 0.5, 0, 0.5⟩ :=
    Function.update_same _ _ _
  refine ⟨place_sphere_stuck _ hp, ?_⟩
  intro fuel
  unfold reset_spheres gen_fold
  rw [show List.range' 1 (SPHERES_COUNT - 1) = 1 :: 2 :: List.range' 3 72
    from rfl, List.foldl_cons, List.foldl_cons]
  simp only [Option.some_bind]
  cases h1 : gen_sphere zfun zfun zhsv zstream fuel init_state 1 with
  | none => simp only [Option.none_bind]; exact foldl_bind_none _ _
  | some st1 =>
    simp only [Option.some_bind]
    obtain ⟨c, idx2, hps, hpos⟩ := gen_sphere_positions h1
    have hc : c = (-6, 0) := place_sphere_zstream_pos _ _ _ _ _ _ _ hps
    have hpos1 : st1.positions 1 = ⟨-6, 0.5, 0, 0.5⟩ := by
      rw [hpos, hc, size_zstream]
      exact Function.update_same _ _ _
    have h2 : gen_sphere zfun zfun zhsv zstream fuel st1 2 = none := by
      simp only [gen_sphere, size_zstream]
      rw [place_sphere_stuck st1.positions hpos1 fuel (st1.idx + 1)]
    rw [h2]
    exact foldl_bind_none _ _

/-- The squared planar distance is symmetric, hence so is hdist. -/
lemma hdist_comm (p q : Vec4) : hdist p q = hdist q p := by
  unfold hdist
  rw [show ((p.x - q.x) ^ 2 + (p.z - q.z) ^ 2 : ℚ)
    = ((q.x - p.x) ^ 2 + (q.z - p.z) ^ 2 : ℚ) from by ring]

/-- Separation of two sphere records is symmetric. -/
lemma far_comm {p q : Vec4} (h : far p q) : far q p := by
  unfold far at h ⊢
  rwa [hdist_comm q p, add_comm q.w p.w]

/-- A failed collision test gives separation between the candidate sphere
record and the tested sphere: either the radius sum is nonpositive (and
the distance is nonnegative), or the squared distance dominates the
squared radius sum. -/
lemma far_of_collides_false {q : Vec4} {x z size : ℚ}
    (h : collides q x z size = false) : far ⟨x, size, z, size⟩ q := by
  simp only [collides, decide_eq_false_iff_not] at h
  show ((size + q.w : ℚ) : ℝ) ≤ hdist ⟨x, size, z, size⟩ q
  unfold hdist
  rcases lt_or_le 0 (q.w + size) with hpos | hneg
  · have h2 : (q.w + size) ^ 2 ≤ (q.x - x) ^ 2 + (q.z - z) ^ 2 :=
      not_lt.mp fun hc => h ⟨hpos, hc⟩
    apply Real.le_sqrt_of_sq_le
    have hq : (size + q.w) ^ 2 ≤
        ((⟨x, size, z, size⟩ : Vec4).x - q.x) ^ 2 +
        ((⟨x, size, z, size⟩ : Vec4).z - q.z) ^ 2 := by
      show (size + q.w) ^ 2 ≤ (x - q.x) ^ 2 + (z - q.z) ^ 2
      nlinarith [h2]
    exact_mod_cast hq
  · have h0 : ((size + q.w : ℚ) : ℝ) ≤ 0 := by
      have : size + q.w ≤ 0 := by linarith
      exact_mod_cast this
    exact le_trans h0 (Real.sqrt_nonneg _)

/-- A cleared collision scan clears every previously placed sphere. -/
lemma any_collision_false_mem {p : ℕ → Vec4} {i : ℕ} {x z size : ℚ}
    (h : any_collision p i x z size = false)
    {j : ℕ} (h1 : 1 ≤ j) (hj : j < i) : collides (p j) x z size = false := by
  unfold any_collision at h
  rw [List.any_eq_false] at h
  have hm : j ∈ List.range' 1 (i - 1) := by
    rw [List.mem_range'_1]
    omega
  simpa using h j hm

/-- A position returned by the rejection loop passed the collision scan
against every sphere placed before sphere i. -/
lemma place_sphere_accepted {sinQ cosQ : ℚ → ℚ} {p : ℕ → Vec4} {i : ℕ}
    {size : ℚ} {s : ℕ → ℚ} :
    ∀ fuel idx c idx2,
      place_sphere sinQ cosQ p i size s idx fuel = some (c, idx2) →
      any_collision p i c.1 c.2 size = false := by
  intro fuel
  induction fuel with
  | zero => intro idx c idx2 h; exact absurd h (by simp [place_sphere])
  | succ f ih =>
    intro idx c idx2 h
    simp only [place_sphere] at h
    split at h
    · exact ih (idx + 2) c idx2 h
    · rename_i hcond
      simp only [Option.some.injEq, Prod.mk.injEq] at h
      rw [← h.1]
      exact Bool.not_eq_true _ ▸ hcond

/-- Generating sphere i preserves and extends pairwise separation: if the
spheres 1..i-1 are pairwise separated, then after a successful placement
of sphere i the spheres 1..i are pairwise separated. -/
lemma gen_sphere_inv {sinQ cosQ : ℚ → ℚ} {hsv : ℚ → ℚ → ℚ → ℚ × ℚ × ℚ}
    {s : ℕ → ℚ} {fuel : ℕ} {st : GenState} {i : ℕ} {st' : GenState}
    (hi : 1 ≤ i) (hInv : scene_inv st.positions i)
    (h : gen_sphere sinQ cosQ hsv s fuel st i = some st') :
    scene_inv st'.positions (i + 1) := by
  obtain ⟨c, idx2, hps, hpos⟩ := gen_sphere_positions h
  have hacc := place_sphere_accepted fuel (st.idx + 1) c idx2 hps
  intro a b ha hb hak hbk hab
  rw [hpos]
  rcases Nat.lt_succ_iff_lt_or_eq.mp hak with ha' | rfl
  · rcases Nat.lt_succ_iff_lt_or_eq.mp hbk with hb' | rfl
    · rw [Function.update_noteq (Nat.ne_of_lt ha'),
        Function.update_noteq (Nat.ne_of_lt hb')]
      exact hInv a b ha hb ha' hb' hab
    · rw [Function.update_noteq (Nat.ne_of_lt ha'), Function.update_same]
      exact far_comm (far_of_collides_false
        (any_collision_false_mem hacc ha ha'))
  · rcases Nat.lt_succ_iff_lt_or_eq.mp hbk with hb' | rfl
    · rw [Function.update_noteq (Nat.ne_of_lt hb'), Function.update_same]
      exact far_of_collides_false (any_collision_false_mem hacc hb hb')
    · exact absurd rfl hab

/-- Running the generation loop for spheres 1..n yields a scene whose
spheres 1..n are pairwise separated. -/
lemma gen_fold_inv {sinQ cosQ : ℚ → ℚ} {hsv : ℚ → ℚ → ℚ → ℚ × ℚ × ℚ}
    {s : ℕ → ℚ} {fuel : ℕ} :
    ∀ n st, gen_fold sinQ cosQ hsv s fuel n = some st →
      scene_inv st.positions (n + 1) := by
  intro n
  induction n with
  | zero =>
    intro st h
    simp only [gen_fold, List.range', List.foldl_nil, Option.some.injEq] at h
    intro a b ha hb hak hbk hab
    omega
  | succ n ih =>
    intro st h
    unfold gen_fold at h
    rw [List.range'_concat, one_mul, List.foldl_append, List.foldl_cons,
      List.foldl_nil] at h
    cases hprev : (List.range' 1 n).foldl
        (fun acc i => acc.bind fun st => gen_sphere sinQ cosQ hsv s fuel st i)
        (some init_state) with
    | none => rw [hprev] at h; cases h
    | some stp =>
      rw [hprev] at h
      simp only [Option.some_bind] at h
      have hInv : scene_inv stp.positions (1 + n) := by
        have := ih stp hprev
        rwa [Nat.add_comm n 1] at this
      have := gen_sphere_inv (by omega) hInv h
      rwa [show 1 + n + 1 = n + 1 + 1 from by omega] at this

/-- C1: after scene generation completes, every pair of distinct
non-ground spheres (indices 1..SPHERES_COUNT-1) has horizontal-plane
(x,z) center distance at least the sum of their radii. -/
theorem scene_spheres_nonoverlap (sinQ cosQ : ℚ → ℚ)
    (hsv : ℚ → ℚ → ℚ → ℚ × ℚ × ℚ) (s : ℕ → ℚ) (fuel : ℕ) (st : GenState)
    (h : reset_spheres sinQ cosQ hsv s fuel = some st)
    (i j : ℕ) (hi1 : 1 ≤ i) (hiN : i < SPHERES_COUNT)
    (hj1 : 1 ≤ j) (hjN : j < SPHERES_COUNT) (hij : i ≠ j) :
    (((st.positions i).w + (st.positions j).w : ℚ) : ℝ) ≤
      hdist (st.positions i) (st.positions j) := by
  have hinv := gen_fold_inv (SPHERES_COUNT - 1) st h
  rw [show SPHERES_COUNT - 1 + 1 = SPHERES_COUNT from rfl] at hinv
  exact hinv i j hi1 hj1 hiN hjN hij

/-- The size drawn from the constant -3 stream is always -1. -/
lemma size_cstream (n : ℕ) : random_uniform 0.5 1 (cstream n) = -1 := by
  norm_num [random_uniform, cstream]

/-- On the constant -3 stream every candidate position is (-6, 0). -/
lemma candidate_cstream (idx : ℕ) :
    candidate zfun zfun (cstream idx) (cstream (idx + 1)) = (-6, 0) := by
  norm_num [candidate, zfun, cstream, SPHERES_CIRCLE_RADIUS, random_uniform]

/-- On the constant -3 stream the rejection loop accepts its first
candidate: all radius sums against the previously placed spheres are
negative, so the collision scan is clear. -/
lemma cstream_place (p : ℕ → Vec4) (i idx : ℕ)
    (hp : ∀ j, 1 ≤ j → j < i → p j = ⟨-6, -1, 0, -1⟩) :
    place_sphere zfun zfun p i (-1) cstream idx 1 = some ((-6, 0), idx + 2) := by
  have hcol : any_collision p i (-6 : ℚ) 0 (-1) = false := by
    unfold any_collision
    rw [List.any_eq_false]
    intro j hj
    rw [List.mem_range'_1] at hj
    have hji : j < i := by omega
    have := hp j hj.1 hji
    simp [collides, this]
  simp [place_sphere, candidate_cstream, hcol]

/-- Running the generation loop on the constant -3 stream succeeds for
every prefix length, and places every generated sphere at (-6, 0) with
size -1. -/
lemma cstream_gen : ∀ n, ∃ st,
    gen_fold zfun zfun zhsv cstream 1 n = some st ∧
    ∀ j, 1 ≤ j → j ≤ n → st.positions j = ⟨-6, -1, 0, -1⟩ := by
  intro n
  induction n with
  | zero =>
    refine ⟨init_state, by simp [gen_fold, List.range'], fun j h1 h2 => ?_⟩
    exact absurd (h1.trans h2) (by norm_num)
  | succ n ih =>
    obtain ⟨st, hst, hpos⟩ := ih
    have hp : ∀ j, 1 ≤ j → j < 1 + n → st.positions j = ⟨-6, -1, 0, -1⟩ :=
      fun j h1 h2 => hpos j h1 (by omega)
    cases hg : gen_sphere zfun zfun zhsv cstream 1 st (1 + n) with
    | none =>
      exfalso
      simp only [gen_sphere, size_cstream] at hg
      rw [cstream_place st.positions (1 + n) (st.idx + 1) hp] at hg
      simp at hg
    | some st' =>
      obtain ⟨c, idx2, hps, hpos'⟩ := gen_sphere_positions hg
      rw [size_cstream] at hps hpos'
      rw [cstream_place st.positions (1 + n) (st.idx + 1) hp] at hps
      simp only [Option.some.injEq, Prod.mk.injEq] at hps
      rw [← hps.1] at hpos'
      refine ⟨st', ?_, ?_⟩
      · unfold gen_fold at hst ⊢
        rw [List.range'_concat, one_mul, List.foldl_append, List.foldl_cons,
          List.foldl_nil, hst]
        simp only [Option.some_bind]
        exact hg
      · intro j h1 h2
        rw [hpos']
        by_cases hj : j = 1 + n
        · rw [hj, Function.update_same]
        · have hjn : j ≤ n := by omega
          rw [Function.update_noteq hj]
          exact hpos j h1 hjn

/-- Witness for C1: the constant -3 stream generates a full scene, and
the separation bound holds for the generated spheres 1 and 2. -/
theorem scene_spheres_nonoverlap_witness :
    reset_spheres zfun zfun zhsv cstream 1 =
      some ((reset_spheres zfun zfun zhsv cstream 1).getD init_state) ∧
    ((((((reset_spheres zfun zfun zhsv cstream 1).getD init_state).positions 1).w +
      (((reset_spheres zfun zfun zhsv cstream 1).getD init_state).positions 2).w :
        ℚ) : ℝ) ≤
      hdist (((reset_spheres zfun zfun zhsv cstream 1).getD init_state).positions 1)
        (((reset_spheres zfun zfun zhsv cstream 1).getD init_state).positions 2)) := by
  obtain ⟨st, hst, hpos⟩ := cstream_gen (SPHERES_COUNT - 1)
  have h1 : reset_spheres zfun zfun zhsv cstream 1 = some st := hst
  have h2 : reset_spheres zfun zfun zhsv cstream 1 =
      some ((reset_spheres zfun zfun zhsv cstream 1).getD init_state) := by
    rw [h1]
    rfl
  exact ⟨h2, scene_spheres_nonoverlap zfun zfun zhsv cstream 1 _ h2 1 2
    (le_refl 1) (by decide) (by decide) (by decide) (by decide)⟩

end RayTracer
